import Mathlib

set_option maxRecDepth 8192

/-!
Shallow embedding of `sentiment_analyzer.py` (comment sentiment analyzer).

Python strings are modelled as `List Char`, one entry per code point, so
Python `len` is `List.length`.  The pretrained classification model is an
abstract oracle mapping a text to its argmax label together with the
per-label score vector (three labels: negative, neutral, positive).
Fallible file processing is modelled with `Except`: a `.error` value stands
for an uncaught Python exception, `.ok` for a normal return.
-/

/-- Python strings, as lists of code points. -/
abbrev Str := List Char

/-- The newline character. -/
def nl : Char := Char.ofNat 10

/-- The double-quote character. -/
def dqChar : Char := Char.ofNat 34

/-- The single-quote character. -/
def sqChar : Char := Char.ofNat 39

/-- Characters removed by Python `str.strip()` with no argument. -/
def pyIsSpace (c : Char) : Bool := c.toNat ∈ [32, 9, 10, 13, 11, 12]

/-- Python `s.strip()`: drop whitespace from both ends. -/
def pyStripWs (l : Str) : Str :=
  ((l.dropWhile pyIsSpace).reverse.dropWhile pyIsSpace).reverse

/-- Python `s.strip(c)` for a one-character argument `c`. -/
def pyStripChar (c : Char) (l : Str) : Str :=
  ((l.dropWhile (· = c)).reverse.dropWhile (· = c)).reverse

/-- Python `s.rstrip(c)` for a one-character argument `c`. -/
def pyRstrip (c : Char) (l : Str) : Str :=
  (l.reverse.dropWhile (· = c)).reverse

/-- Python `str.lower`, restricted to the alphabets the program works with
(ASCII and Cyrillic; these are the only characters its keyword and
source-name checks can distinguish). -/
def pyLowerChar (c : Char) : Char :=
  if 65 ≤ c.toNat ∧ c.toNat ≤ 90 then Char.ofNat (c.toNat + 32)
  else if 1040 ≤ c.toNat ∧ c.toNat ≤ 1071 then Char.ofNat (c.toNat + 32)
  else if c.toNat = 1025 then Char.ofNat 1105
  else c

/-- Python `s.lower()`. -/
def pyLower (l : Str) : Str := l.map pyLowerChar

/-- Python `sub in s`: substring containment. -/
def containsSub (s sub : Str) : Bool :=
  (List.range (s.length + 1)).any (fun i => sub.isPrefixOf (s.drop i))

/-- The part of the string before the leftmost occurrence of `sep`, and the
part after it; `none` when `sep` does not occur. -/
def firstSplit (sep : Str) : Str → Option (Str × Str)
  | [] => none
  | c :: rest =>
    if sep.isPrefixOf (c :: rest) then some ([], (c :: rest).drop sep.length)
    else
      match firstSplit sep rest with
      | some (pre, post) => some (c :: pre, post)
      | none => none

/-- Fuelled worker for `pySplit`. -/
def pySplitAux (sep : Str) : Nat → Str → List Str
  | 0, l => [l]
  | fuel + 1, l =>
    match firstSplit sep l with
    | none => [l]
    | some (pre, post) => pre :: pySplitAux sep fuel post

/-- Python `s.split(sep)` for a nonempty separator: the fuel `l.length + 1`
is enough because every removed separator consumes at least one character. -/
def pySplit (sep l : Str) : List Str := pySplitAux sep (l.length + 1) l

/-- Result of one oracle (model) call in `is_positive_comment`: the argmax
label `id2label[proba.argmax()]` together with the score vector `proba`
(index 0 negative, 1 neutral, 2 positive). -/
structure OracleResult where
  label : Str
  scores : Fin 3 → ℚ

/-- The configuration fields that the claims exercise, from `Config.__init__`. -/
structure Config where
  EXCLUDE_AUTHORS : List Str
  MIN_COMMENT_LENGTH : Nat
  POSITIVE_THRESHOLD : ℚ

/-- The `EXCLUDE_AUTHORS` computation from `Config.__init__`:
`exclude_str.strip(chr(34)).strip(chr(39))`, split on commas, keep each
element stripped of whitespace when the stripped element is nonempty.
The Python set is modelled as the list of its elements in encounter order. -/
def excludeAuthorsOf (exclude_str : Str) : List Str :=
  let s := pyStripChar sqChar (pyStripChar dqChar exclude_str)
  ((pySplit [','] s).map pyStripWs).filter (fun a => a ≠ [])

/-- The fixed praise keyword list from `is_positive_comment`. -/
def praise_keywords : List Str :=
  ["спасибо".data, "благодарю".data, "отлично".data, "прекрасно".data,
   "замечательно".data, "великолепно".data, "хорошо".data, "молодец".data,
   "браво".data, "супер".data, "класс".data, "круто".data, "восхищен".data,
   "впечатлен".data, "полезно".data, "помогло".data, "отличная статья".data,
   "хорошая работа".data]

/-- `SentimentAnalyzer.is_positive_comment`, with the model call abstracted
into `oracle`. -/
def is_positive_comment (cfg : Config) (oracle : Str → OracleResult)
    (text author : Str) : Bool :=
  if author ∈ cfg.EXCLUDE_AUTHORS then false
  else if text.length < cfg.MIN_COMMENT_LENGTH then false
  else
    let proba := (oracle text).scores
    let label := (oracle text).label
    if label = "positive".data ∧ cfg.POSITIVE_THRESHOLD ≤ proba 2 then true
    else if label = "neutral".data ∧
        praise_keywords.any (fun keyword => containsSub (pyLower text) keyword) = true then true
    else false

/-- `get_comment_url`: synthesize a deep link to a comment from the source
directory name, the article URL and the comment id. -/
def get_comment_url (directory_name article_url comment_id : Str) : Str :=
  if containsSub (pyLower directory_name) ("habr".data) = true then
    if containsSub article_url ("habr.com".data) = true then
      let article_id :=
        (pySplit ("/".data) ((pySplit ("/articles/".data) article_url).getLastD [])).headD []
      "https://habr.com/ru/articles/".data ++ article_id ++
        "/comments/#comment_".data ++ comment_id
    else "Unknown Habr URL: ".data ++ article_url
  else if containsSub (pyLower directory_name) ("smart-lab".data) = true then
    if containsSub article_url ("smart-lab.ru".data) = true then
      let article_id :=
        (pySplit (".php".data) ((pySplit ("/blog/".data) article_url).getLastD [])).headD []
      "https://smart-lab.ru/blog/".data ++ article_id ++ ".php#comment".data ++ comment_id
    else "Unknown Smart-Lab URL: ".data ++ article_url
  else if containsSub (pyLower directory_name) ("t-j".data) = true ∨
      containsSub (pyLower directory_name) ("tj".data) = true then
    if article_url ≠ [] then
      let base_url := (pySplit ("#".data) (pyRstrip '/' article_url)).headD []
      base_url ++ "/#c".data ++ comment_id
    else "Unknown TJ URL (comment: ".data ++ comment_id ++ ")".data
  else
    "Unknown source (url: ".data ++ article_url ++ ", comment: ".data ++
      comment_id ++ ")".data

/-- Parsed JSON values, as produced by `json.load`. -/
inductive J where
  | null
  | b (v : Bool)
  | n (v : Int)
  | s (v : Str)
  | arr (xs : List J)
  | obj (fields : List (Str × J))

/-- A JSON object / Python dict: key-value pairs in insertion order. -/
abbrev Dict := List (Str × J)

/-- Python `d[k]` lookup (first matching key). -/
def dGet : Dict → Str → Option J
  | [], _ => none
  | (k, v) :: rest, key => if k = key then some v else dGet rest key

/-- Python `d.get(k, dflt)`. -/
def dGetD (d : Dict) (key : Str) (dflt : J) : J := (dGet d key).getD dflt

/-- Python `d[k] = v`: replace the value at an existing key in place, or
append a new key at the end. -/
def dSet : Dict → Str → J → Dict
  | [], key, v => [(key, v)]
  | (k, w) :: rest, key, v =>
    if k = key then (key, v) :: rest else (k, w) :: dSet rest key v

/-- Python truthiness of a JSON value. -/
def jTruthy : J → Bool
  | .null => false
  | .b v => v
  | .n v => v != 0
  | .s v => !v.isEmpty
  | .arr xs => !xs.isEmpty
  | .obj fs => !fs.isEmpty

/-- View a JSON value as a Python string.  Non-string values are modelled as
the empty string; the analyzer only reaches this conversion on
schema-conforming string fields, and no claim below depends on the other
cases. -/
def jAsStr : J → Str
  | .s v => v
  | _ => []

/-- Python `str()` of the scalar JSON values that can appear in the report
(the container cases are not rendered faithfully; no claim depends on them). -/
def jShow : J → Str
  | .null => "None".data
  | .b true => "True".data
  | .b false => "False".data
  | .n v => (toString v).data
  | .s v => v
  | .arr _ => []
  | .obj _ => []

/-- The two assignments performed on an accepted comment in
`process_json_file`: `comment[chr(97)...] = article_url` and
`comment[...] = directory_name`. -/
def acceptComment (cd : Dict) (article_url : J) (directory_name : Str) : Dict :=
  dSet (dSet cd ("article_url".data) article_url) ("directory_name".data) (J.s directory_name)

/-- The comment loop of `process_json_file`: skip records with falsy `text`
or `author`, keep the ones the analyzer accepts, attaching the article URL
and the directory name.  A non-object record would raise in Python
(`comment.get` on a non-dict), modelled as `.error`. -/
def processComments (cfg : Config) (oracle : Str → OracleResult)
    (article_url : J) (directory_name : Str) : List J → Except Str (List Dict)
  | [] => .ok []
  | c :: rest =>
    match c with
    | .obj cd =>
      let text := dGetD cd ("text".data) (J.s [])
      let author := dGetD cd ("author".data) (J.s [])
      if jTruthy text = false ∨ jTruthy author = false then
        processComments cfg oracle article_url directory_name rest
      else if is_positive_comment cfg oracle (jAsStr text) (jAsStr author) then
        match processComments cfg oracle article_url directory_name rest with
        | .ok r => .ok (acceptComment cd article_url directory_name :: r)
        | .error e => .error e
      else
        processComments cfg oracle article_url directory_name rest
    | _ => .error ("comment record is not an object".data)

/-- `process_json_file`.  The file read and `json.load` are abstracted into
`parsed`: `none` means the read or parse raised (the function prints a
warning and returns the empty list); `some v` is the parsed document.  A
non-object document or a non-list `comments` value would raise outside the
`try` block in Python, modelled as `.error`. -/
def process_json_file (cfg : Config) (oracle : Str → OracleResult)
    (parsed : Option J) (directory_name : Str) : Except Str (List Dict) :=
  match parsed with
  | none => .ok []
  | some (.obj data) =>
    let article_url := dGetD data ("url".data) (J.s [])
    match dGetD data ("comments".data) (J.arr []) with
    | .arr comments => processComments cfg oracle article_url directory_name comments
    | _ => .error ("comments field is not a list".data)
  | some _ => .error ("top-level JSON value is not an object".data)

/-- The separator written between consecutive comment blocks:
100 repetitions of `=` and a newline. -/
def sepLine : Str := List.replicate 100 '=' ++ [nl]

/-- One four-line comment block of the report, from the body of the writing
loop in `main`. -/
def renderComment (c : Dict) : Str :=
  let author := jShow (dGetD c ("author".data) (J.s ("Неизвестный автор".data)))
  let datetime := jShow (dGetD c ("datetime".data) (J.s ("Дата неизвестна".data)))
  let text := jShow (dGetD c ("text".data) (J.s []))
  let comment_id := jShow (dGetD c ("id".data) (J.s ("unknown".data)))
  let article_url := jAsStr (dGetD c ("article_url".data) (J.s []))
  let directory_name := jAsStr (dGetD c ("directory_name".data) (J.s []))
  let comment_url := get_comment_url directory_name article_url comment_id
  "Автор: ".data ++ author ++ [nl] ++
    "Дата: ".data ++ datetime ++ [nl] ++
    "Текст: ".data ++ text ++ [nl] ++
    "Ссылка: ".data ++ comment_url ++ [nl]

/-- The writing loop of `main`: one block per comment, with `sepLine`
after every block except the last one. -/
def renderComments : List Dict → Str
  | [] => []
  | [c] => renderComment c
  | c :: rest => renderComment c ++ sepLine ++ renderComments rest

/-- The sort key of `main`: `c.get(...) if c.get(...) is not None else 0`.
A missing key and JSON `null` both give 0; non-numeric ids would not compare
against 0 in Python and are unreachable on schema-conforming data. -/
def idKey (c : Dict) : Int :=
  match dGet c ("id".data) with
  | some (J.n v) => v
  | _ => 0

/-- Comparison by sort key. -/
def keyLe (a b : Dict) : Prop := idKey a ≤ idKey b

instance : DecidableRel keyLe := fun a b => inferInstanceAs (Decidable (idKey a ≤ idKey b))

instance : IsTotal Dict keyLe := ⟨fun a b => Int.le_total (idKey a) (idKey b)⟩

instance : IsTrans Dict keyLe := ⟨fun _ _ _ hab hbc => le_trans hab hbc⟩

/-- `comments.sort(key=...)`: Python's sort is the unique stable ascending
sort, which insertion sort computes. -/
def sortComments (l : List Dict) : List Dict := List.insertionSort keyLe l

/-- Processing of all files of one directory: concatenation of the per-file
results, in file order (`grouped[directory].extend` in `main`). -/
def dirComments (cfg : Config) (oracle : Str → OracleResult)
    (directory_name : Str) : List (Option J) → Except Str (List Dict)
  | [] => .ok []
  | f :: rest =>
    match process_json_file cfg oracle f directory_name with
    | .error e => .error e
    | .ok cs =>
      match dirComments cfg oracle directory_name rest with
      | .error e => .error e
      | .ok more => .ok (cs ++ more)

/-- The aggregation and report phase of `main`: pairs (directory name,
report text), one per directory whose accepted-comment list is nonempty, in
directory order (the iteration order of the insertion-ordered dict). -/
def runOutputs (cfg : Config) (oracle : Str → OracleResult) :
    List (Str × List (Option J)) → Except Str (List (Str × Str))
  | [] => .ok []
  | (d, files) :: rest =>
    match dirComments cfg oracle d files with
    | .error e => .error e
    | .ok cs =>
      match runOutputs cfg oracle rest with
      | .error e => .error e
      | .ok outs =>
        if cs.isEmpty then .ok outs
        else .ok ((d, renderComments (sortComments cs)) :: outs)

/-- Modelled from the spec sentence behind C8: trim whitespace and
surrounding quote characters from the whole string, then trim each
comma-separated element the same way, and drop empty elements.  Written for
comparison against `excludeAuthorsOf`, which follows the code. -/
def excludeAuthorsSpec (exclude_str : Str) : List Str :=
  let trim : Str → Str := fun s => pyStripChar sqChar (pyStripChar dqChar (pyStripWs s))
  ((pySplit [','] (trim exclude_str)).map trim).filter (fun a => a ≠ [])

/-- A concrete configuration used to instantiate general theorems. -/
def cfgW : Config :=
  { EXCLUDE_AUTHORS := ["empenoso".data], MIN_COMMENT_LENGTH := 20, POSITIVE_THRESHOLD := 1 }

/-- A concrete oracle that labels everything negative with zero scores. -/
def oracleW : Str → OracleResult :=
  fun _ => { label := "negative".data, scores := fun _ => 0 }

/-- A concrete oracle that labels everything positive with score 2. -/
def oracleW2 : Str → OracleResult :=
  fun _ => { label := "positive".data, scores := fun _ => 2 }

/-- Setting a key and reading it back yields the new value. -/
theorem dGet_dSet_self (k : Str) (v : J) : ∀ d : Dict, dGet (dSet d k v) k = some v
  | [] => by simp [dSet, dGet]
  | (k', w) :: rest => by
    by_cases h : k' = k
    · simp [dSet, dGet, h]
    · simp [dSet, dGet, h, dGet_dSet_self k v rest]

/-- Setting a key leaves every other key unchanged. -/
theorem dGet_dSet_ne (k key : Str) (v : J) (h : key ≠ k) :
    ∀ d : Dict, dGet (dSet d k v) key = dGet d key
  | [] => by simp [dSet, dGet, Ne.symm h]
  | (k', w) :: rest => by
    by_cases hk : k' = k
    · subst hk; simp [dSet, dGet, Ne.symm h]
    · by_cases hkey : k' = key
      · simp [dSet, dGet, hk, hkey, h]
      · simp [dSet, dGet, hk, hkey, dGet_dSet_ne k key v h rest]

/-- Lookup in an accepted comment record: the two attached keys read back
their attached values, every other key reads from the original record. -/
theorem dGet_acceptComment (cd : Dict) (u : J) (dname : Str) (k : Str) :
    dGet (acceptComment cd u dname) k =
      if k = "article_url".data then some u
      else if k = "directory_name".data then some (J.s dname)
      else dGet cd k := by
  unfold acceptComment
  by_cases h1 : k = "directory_name".data
  · subst h1
    rw [dGet_dSet_self]
    simp
  · rw [dGet_dSet_ne _ _ _ h1]
    by_cases h2 : k = "article_url".data
    · subst h2; rw [dGet_dSet_self]; simp
    · rw [dGet_dSet_ne _ _ _ h2]
      simp [h1, h2]

/-- C1: `is_positive_comment` returns false whenever the author is excluded
or the text is shorter than the minimum length; otherwise it returns true
exactly when the oracle's argmax label is "positive" and the score at index
2 is at least the threshold, or the label is "neutral" and the lowercased
text contains one of the praise keywords. -/
theorem C1_is_positive_characterisation
    (cfg : Config) (oracle : Str → OracleResult) (text author : Str) :
    is_positive_comment cfg oracle text author = true ↔
      author ∉ cfg.EXCLUDE_AUTHORS ∧ cfg.MIN_COMMENT_LENGTH ≤ text.length ∧
        (((oracle text).label = "positive".data ∧
            cfg.POSITIVE_THRESHOLD ≤ (oracle text).scores 2) ∨
          ((oracle text).label = "neutral".data ∧
            ∃ k ∈ praise_keywords, containsSub (pyLower text) k = true)) := by
  simp only [is_positive_comment]
  split_ifs with h1 h2 h3 h4
  · simp [h1]
  · simp only [Bool.false_eq_true, false_iff]
    rintro ⟨-, hle, -⟩
    omega
  · simp only [true_iff]
    exact ⟨h1, by omega, Or.inl h3⟩
  · simp only [true_iff]
    refine ⟨h1, by omega, Or.inr ⟨h4.1, ?_⟩⟩
    simpa [List.any_eq_true] using h4.2
  · simp only [Bool.false_eq_true, false_iff]
    rintro ⟨-, -, hor | hor⟩
    · exact h3 hor
    · exact h4 ⟨hor.1, by simpa [List.any_eq_true] using hor.2⟩

/-- C5: on a text shorter than the configured minimum (with a non-excluded
author) the verdict is false and does not depend on the oracle. -/
theorem C5_short_text_oracle_independent
    (cfg : Config) (o1 o2 : Str → OracleResult) (text author : Str)
    (hlen : text.length < cfg.MIN_COMMENT_LENGTH)
    (hauth : author ∉ cfg.EXCLUDE_AUTHORS) :
    is_positive_comment cfg o1 text author = false ∧
    is_positive_comment cfg o1 text author = is_positive_comment cfg o2 text author := by
  simp [is_positive_comment, hlen, hauth]

/-- Witness for C5 at a concrete short text and two concrete oracles. -/
theorem C5_short_text_oracle_independent_witness :
    ("hi".data).length < cfgW.MIN_COMMENT_LENGTH ∧
    ("bob".data) ∉ cfgW.EXCLUDE_AUTHORS ∧
    (is_positive_comment cfgW oracleW2 ("hi".data) ("bob".data) = false ∧
     is_positive_comment cfgW oracleW2 ("hi".data) ("bob".data) =
       is_positive_comment cfgW oracleW ("hi".data) ("bob".data)) :=
  ⟨by decide, by decide,
   C5_short_text_oracle_independent cfgW oracleW2 oracleW ("hi".data) ("bob".data)
     (by decide) (by decide)⟩

/-- C2 counterexample: on the spec's own example input the code produces
".../article//#c3" (the slash standing before the anchor survives, because
`rstrip` runs before the anchor is cut), not the claimed ".../article/#c3". -/
theorem C2_tj_example_counterexample :
    get_comment_url ("t-j_comments".data)
        ("https://example.com/article/#section".data) ("3".data) =
      ("https://example.com/article//#c3".data) ∧
    get_comment_url ("t-j_comments".data)
        ("https://example.com/article/#section".data) ("3".data) ≠
      ("https://example.com/article/#c3".data) := by
  constructor
  · rfl
  · decide

/-- C2 (amended): for a source name containing "t-j" or "tj" (and none of
the earlier dispatch markers) and a nonempty article URL, the code strips
trailing slashes first, cuts at the first "#" second, and appends
"/#c<comment_id>"; a slash immediately preceding the anchor is kept, so the
spec example yields ".../article//#c3". -/
theorem C2_tj_url_rule (directory_name article_url comment_id : Str)
    (hhabr : containsSub (pyLower directory_name) ("habr".data) = false)
    (hsl : containsSub (pyLower directory_name) ("smart-lab".data) = false)
    (htj : containsSub (pyLower directory_name) ("t-j".data) = true ∨
      containsSub (pyLower directory_name) ("tj".data) = true)
    (hurl : article_url ≠ []) :
    get_comment_url directory_name article_url comment_id =
      (pySplit ("#".data) (pyRstrip '/' article_url)).headD [] ++
        "/#c".data ++ comment_id := by
  simp [get_comment_url, hhabr, hsl, htj, hurl]

/-- Witness for C2's amended rule at the spec's example input. -/
theorem C2_tj_url_rule_witness :
    containsSub (pyLower ("t-j_comments".data)) ("habr".data) = false ∧
    containsSub (pyLower ("t-j_comments".data)) ("smart-lab".data) = false ∧
    containsSub (pyLower ("t-j_comments".data)) ("t-j".data) = true ∧
    ("https://example.com/article/#section".data : Str) ≠ [] ∧
    get_comment_url ("t-j_comments".data)
        ("https://example.com/article/#section".data) ("3".data) =
      (pySplit ("#".data)
          (pyRstrip '/' ("https://example.com/article/#section".data))).headD [] ++
        "/#c".data ++ ("3".data) :=
  ⟨by decide, by decide, by decide, by decide,
   C2_tj_url_rule ("t-j_comments".data)
     ("https://example.com/article/#section".data) ("3".data)
     (by decide) (by decide) (Or.inl (by decide)) (by decide)⟩

/-- C3 counterexample: for a habr source whose URL contains "habr.com" but
has no "/articles/" segment, the code does not fall back to the
"Unknown Habr URL" diagnostic; it builds a link from the first
slash-separated piece of the whole URL ("https:" here). -/
theorem C3_habr_missing_segment_counterexample :
    get_comment_url ("habr_comments".data)
        ("https://habr.com/ru/post/123/".data) ("99".data) =
      ("https://habr.com/ru/articles/https:/comments/#comment_99".data) ∧
    get_comment_url ("habr_comments".data)
        ("https://habr.com/ru/post/123/".data) ("99".data) ≠
      ("Unknown Habr URL: https://habr.com/ru/post/123/".data) := by
  constructor
  · rfl
  · decide

/-- C3 (amended): for a source name containing "habr" the diagnostic string
is returned only when the URL lacks "habr.com"; otherwise the code uses the
text after the last "/articles/" occurrence up to the next "/" — which is
the first slash-piece of the whole URL when "/articles/" is absent. -/
theorem C3_habr_url_rule (directory_name article_url comment_id : Str)
    (hhabr : containsSub (pyLower directory_name) ("habr".data) = true) :
    get_comment_url directory_name article_url comment_id =
      if containsSub article_url ("habr.com".data) = true then
        "https://habr.com/ru/articles/".data ++
          (pySplit ("/".data)
            ((pySplit ("/articles/".data) article_url).getLastD [])).headD [] ++
          "/comments/#comment_".data ++ comment_id
      else "Unknown Habr URL: ".data ++ article_url := by
  simp only [get_comment_url, hhabr, if_true]

/-- Witness for C3's amended rule at the spec's positive example, where it
produces the documented link for article 12345. -/
theorem C3_habr_url_rule_witness :
    containsSub (pyLower ("habr_comments".data)) ("habr".data) = true ∧
    get_comment_url ("habr_comments".data)
        ("https://habr.com/ru/articles/12345/".data) ("99".data) =
      (if containsSub ("https://habr.com/ru/articles/12345/".data) ("habr.com".data) = true then
        "https://habr.com/ru/articles/".data ++
          (pySplit ("/".data)
            ((pySplit ("/articles/".data)
              ("https://habr.com/ru/articles/12345/".data)).getLastD [])).headD [] ++
          "/comments/#comment_".data ++ ("99".data)
      else "Unknown Habr URL: ".data ++ ("https://habr.com/ru/articles/12345/".data)) ∧
    get_comment_url ("habr_comments".data)
        ("https://habr.com/ru/articles/12345/".data) ("99".data) =
      ("https://habr.com/ru/articles/12345/comments/#comment_99".data) :=
  ⟨by decide,
   C3_habr_url_rule ("habr_comments".data)
     ("https://habr.com/ru/articles/12345/".data) ("99".data) (by decide),
   by rfl⟩

/-- Inserting an element whose key is `k` puts it in front of every later
element with the same key: the key-`k` sublist gains it at the front. -/
theorem filter_orderedInsert_key_eq (a : Dict) (k : Int) (h : idKey a = k) :
    ∀ l : List Dict,
      (List.orderedInsert keyLe a l).filter (fun c => decide (idKey c = k)) =
        a :: l.filter (fun c => decide (idKey c = k))
  | [] => by simp [h]
  | b :: l => by
    by_cases hab : keyLe a b
    · simp [List.orderedInsert, hab, h]
    · have hbk : ¬ idKey b = k := by
        unfold keyLe at hab
        omega
      simp [List.orderedInsert, hab, hbk, filter_orderedInsert_key_eq a k h l]

/-- Inserting an element with a different key leaves the key-`k` sublist
unchanged. -/
theorem filter_orderedInsert_key_ne (a : Dict) (k : Int) (h : ¬ idKey a = k) :
    ∀ l : List Dict,
      (List.orderedInsert keyLe a l).filter (fun c => decide (idKey c = k)) =
        l.filter (fun c => decide (idKey c = k))
  | [] => by simp [h]
  | b :: l => by
    by_cases hab : keyLe a b
    · simp [List.orderedInsert, hab, h]
    · rw [List.orderedInsert, if_neg hab, List.filter_cons, List.filter_cons,
        filter_orderedInsert_key_ne a k h l]

/-- Stability of the aggregation sort: for every key value, the sublist of
comments with that key is exactly the input sublist, in input order. -/
theorem filter_sortComments (k : Int) :
    ∀ l : List Dict,
      (sortComments l).filter (fun c => decide (idKey c = k)) =
        l.filter (fun c => decide (idKey c = k))
  | [] => rfl
  | a :: l => by
    have ih := filter_sortComments k l
    simp only [sortComments] at ih ⊢
    by_cases h : idKey a = k
    · rw [show List.insertionSort keyLe (a :: l) =
          List.orderedInsert keyLe a (List.insertionSort keyLe l) from rfl,
        filter_orderedInsert_key_eq a k h, ih,
        List.filter_cons_of_pos (by simpa using h)]
    · rw [show List.insertionSort keyLe (a :: l) =
          List.orderedInsert keyLe a (List.insertionSort keyLe l) from rfl,
        filter_orderedInsert_key_ne a k h, ih,
        List.filter_cons_of_neg (by simpa using h)]

/-- First record of C4's concrete example: id 5. -/
def ex5 : Dict := [("id".data, J.n 5), ("text".data, J.s ("e".data))]

/-- Second record of C4's concrete example: id null. -/
def exNull : Dict := [("id".data, J.null), ("text".data, J.s ("f".data))]

/-- Third record of C4's concrete example: first record with id 2. -/
def ex2a : Dict := [("id".data, J.n 2), ("text".data, J.s ("g".data))]

/-- Fourth record of C4's concrete example: second record with id 2. -/
def ex2b : Dict := [("id".data, J.n 2), ("text".data, J.s ("h".data))]

/-- C4: the aggregation sort is ascending in the id key (missing or null id
counting as 0), is a stable permutation of its input (for every key value
the equal-key records keep their input order), and on ids [5, null, 2, 2]
produces [null, 2, 2, 5] with the two id-2 records in input order. -/
theorem C4_sort_stable_ascending :
    (∀ l : List Dict, (sortComments l).Sorted keyLe) ∧
    (∀ l : List Dict, List.Perm (sortComments l) l) ∧
    (∀ (l : List Dict) (k : Int),
      (sortComments l).filter (fun c => decide (idKey c = k)) =
        l.filter (fun c => decide (idKey c = k))) ∧
    sortComments [ex5, exNull, ex2a, ex2b] = [exNull, ex2a, ex2b, ex5] :=
  ⟨fun l => List.sorted_insertionSort keyLe l,
   fun l => List.perm_insertionSort keyLe l,
   fun l k => filter_sortComments k l,
   rfl⟩

/-- The writing loop produces the blocks of the comments interleaved with
single separator lines: no leading, no trailing, one between each pair. -/
theorem renderComments_eq_intercalate :
    ∀ l : List Dict, renderComments l = List.intercalate sepLine (l.map renderComment)
  | [] => rfl
  | [c] => by simp [renderComments, List.intercalate]
  | c :: c2 :: rest => by
    have ih := renderComments_eq_intercalate (c2 :: rest)
    show renderComment c ++ sepLine ++ renderComments (c2 :: rest) = _
    rw [ih]
    simp [List.intercalate, List.flatten]

/-- C6: for every list of accepted comments the report is exactly the
four-line blocks separated by single separator lines (none after the last
one; a single comment yields one block and no separator), the separator
being 100 equals signs and a newline. -/
theorem C6_report_shape :
    (∀ l : List Dict, renderComments l = List.intercalate sepLine (l.map renderComment)) ∧
    (∀ c : Dict, renderComments [c] = renderComment c) ∧
    sepLine = List.replicate 100 '=' ++ [nl] :=
  ⟨renderComments_eq_intercalate, fun _ => rfl, rfl⟩
/-- Unfolding of `runOutputs` on a nonempty directory list. -/
theorem runOutputs_cons (cfg : Config) (oracle : Str → OracleResult)
    (d : Str) (files : List (Option J)) (rest : List (Str × List (Option J))) :
    runOutputs cfg oracle ((d, files) :: rest) =
      match dirComments cfg oracle d files with
      | .error e => .error e
      | .ok cs =>
        match runOutputs cfg oracle rest with
        | .error e => .error e
        | .ok outs =>
          if cs.isEmpty then .ok outs
          else .ok ((d, renderComments (sortComments cs)) :: outs) := rfl

/-- C7: in a completed run, every written report comes from a directory
whose accepted-comment list is nonempty (so a directory that produced zero
accepted comments gets no file), and if every directory produced zero
accepted comments nothing is written at all. -/
theorem C7_reports_only_for_nonempty
    (cfg : Config) (oracle : Str → OracleResult) :
    ∀ (dirs : List (Str × List (Option J))) (outs : List (Str × Str)),
      runOutputs cfg oracle dirs = .ok outs →
      ((∀ p ∈ outs, ∃ files cs, (p.1, files) ∈ dirs ∧
          dirComments cfg oracle p.1 files = .ok cs ∧ cs ≠ [] ∧
          p.2 = renderComments (sortComments cs)) ∧
       ((∀ q ∈ dirs, dirComments cfg oracle q.1 q.2 = .ok []) → outs = []))
  | [], outs => by
    intro h
    simp only [runOutputs, Except.ok.injEq] at h
    subst h
    exact ⟨fun p hp => absurd hp (List.not_mem_nil p), fun _ => rfl⟩
  | (d, files) :: rest, outs => by
    intro h
    rw [runOutputs_cons] at h
    cases hcs : dirComments cfg oracle d files with
    | error e =>
      rw [hcs] at h
      exact Except.noConfusion h
    | ok cs =>
      rw [hcs] at h
      dsimp only at h
      cases hrest : runOutputs cfg oracle rest with
      | error e =>
        rw [hrest] at h
        exact Except.noConfusion h
      | ok outs' =>
        rw [hrest] at h
        dsimp only at h
        have ih := C7_reports_only_for_nonempty cfg oracle rest outs' hrest
        by_cases hemp : cs.isEmpty
        · rw [if_pos hemp, Except.ok.injEq] at h
          subst h
          constructor
          · intro p hp
            obtain ⟨fs, cs', hmem, hdc, hne, hrend⟩ := ih.1 p hp
            exact ⟨fs, cs', List.mem_cons_of_mem _ hmem, hdc, hne, hrend⟩
          · intro hall
            exact ih.2 (fun q hq => hall q (List.mem_cons_of_mem _ hq))
        · rw [if_neg hemp, Except.ok.injEq] at h
          subst h
          constructor
          · intro p hp
            rcases List.mem_cons.mp hp with hp | hp
            · subst hp
              exact ⟨files, cs, List.mem_cons_self _ _, hcs,
                by simpa [List.isEmpty_iff] using hemp, rfl⟩
            · obtain ⟨fs, cs', hmem, hdc, hne, hrend⟩ := ih.1 p hp
              exact ⟨fs, cs', List.mem_cons_of_mem _ hmem, hdc, hne, hrend⟩
          · intro hall
            have hd := hall (d, files) (List.mem_cons_self _ _)
            rw [hcs] at hd
            simp only [Except.ok.injEq] at hd
            exact absurd (by simp [hd] : cs.isEmpty = true) hemp

/-- Witness for C7 on a run with one directory whose only file fails to
parse: no comments are accepted and no report is produced. -/
theorem C7_reports_only_for_nonempty_witness :
    runOutputs cfgW oracleW [(("habr_comments".data : Str), [(none : Option J)])] = .ok [] ∧
    ((∀ q ∈ [(("habr_comments".data : Str), [(none : Option J)])],
        dirComments cfgW oracleW q.1 q.2 = .ok []) → ([] : List (Str × Str)) = []) :=
  ⟨rfl,
   (C7_reports_only_for_nonempty cfgW oracleW
     [(("habr_comments".data : Str), [(none : Option J)])] [] rfl).2⟩

/-- The configuration string of C8's counterexample: `"a","b"` (two
double-quoted names separated by a comma). -/
def exclEx : Str :=
  [dqChar] ++ "a".data ++ [dqChar] ++ ",".data ++ [dqChar] ++ "b".data ++ [dqChar]

/-- C8 counterexample: on the input `"a","b"` the code keeps the inner
quotes (elements are stripped of whitespace only), producing the elements
`a"` and `"b`, whereas the claimed procedure would produce `a` and `b`. -/
theorem C8_exclude_authors_counterexample :
    excludeAuthorsOf exclEx = ["a".data ++ [dqChar], [dqChar] ++ "b".data] ∧
    ("a".data) ∉ excludeAuthorsOf exclEx ∧
    ("a".data) ∈ excludeAuthorsSpec exclEx := by
  refine ⟨rfl, ?_, ?_⟩ <;> decide

/-- C8 (amended): the excluded-author set strips double quotes and then
single quotes from the ends of the whole string only; each comma-separated
element is then trimmed of whitespace only (quotes inside elements are
kept), and empty elements are dropped.  Membership characterisation. -/
theorem C8_exclude_authors_membership (exclude_str author : Str) :
    author ∈ excludeAuthorsOf exclude_str ↔
      author ≠ [] ∧
        ∃ piece ∈ pySplit [','] (pyStripChar sqChar (pyStripChar dqChar exclude_str)),
          pyStripWs piece = author := by
  simp only [excludeAuthorsOf, List.mem_filter, List.mem_map, decide_eq_true_eq]
  constructor
  · rintro ⟨⟨piece, hmem, hstrip⟩, hne⟩
    exact ⟨hne, piece, hmem, hstrip⟩
  · rintro ⟨hne, piece, hmem, hstrip⟩
    exact ⟨⟨piece, hmem, hstrip⟩, hne⟩

/-- C9: a file whose read or parse fails contributes the empty list without
stopping the directory loop, and a well-formed object document behaves as if
a missing url key were the empty string and a missing comments key were the
empty list (hence contributes nothing). -/
theorem C9_ingestion_recovery_and_defaults
    (cfg : Config) (oracle : Str → OracleResult) (directory_name : Str) :
    (process_json_file cfg oracle none directory_name = .ok []) ∧
    (∀ rest : List (Option J),
      dirComments cfg oracle directory_name (none :: rest) =
        dirComments cfg oracle directory_name rest) ∧
    (∀ d : Dict, dGet d ("url".data) = none →
      process_json_file cfg oracle (some (J.obj d)) directory_name =
        process_json_file cfg oracle
          (some (J.obj (dSet d ("url".data) (J.s [])))) directory_name) ∧
    (∀ d : Dict, dGet d ("comments".data) = none →
      process_json_file cfg oracle (some (J.obj d)) directory_name = .ok []) := by
  refine ⟨rfl, ?_, ?_, ?_⟩
  · intro rest
    show (match dirComments cfg oracle directory_name rest with
      | .error e => .error e
      | .ok more => .ok ([] ++ more)) = dirComments cfg oracle directory_name rest
    cases dirComments cfg oracle directory_name rest <;> simp
  · intro d h
    simp only [process_json_file, dGetD, h, Option.getD_none, dGet_dSet_self,
      Option.getD_some,
      dGet_dSet_ne ("url".data) ("comments".data) (J.s []) (by decide) d]
  · intro d h
    simp only [process_json_file, dGetD, h, Option.getD_none]
    rfl

/-- Witness for C9 at the empty document. -/
theorem C9_ingestion_recovery_and_defaults_witness :
    dGet ([] : Dict) ("url".data) = none ∧
    process_json_file cfgW oracleW (some (J.obj [])) ("d".data) =
      process_json_file cfgW oracleW
        (some (J.obj (dSet [] ("url".data) (J.s [])))) ("d".data) ∧
    dGet ([] : Dict) ("comments".data) = none ∧
    process_json_file cfgW oracleW (some (J.obj [])) ("d".data) = .ok [] :=
  ⟨rfl,
   (C9_ingestion_recovery_and_defaults cfgW oracleW ("d".data)).2.2.1 [] rfl,
   rfl,
   (C9_ingestion_recovery_and_defaults cfgW oracleW ("d".data)).2.2.2 [] rfl⟩

/-- Unfolding of `processComments` on a nonempty comment list. -/
theorem processComments_cons (cfg : Config) (oracle : Str → OracleResult)
    (article_url : J) (directory_name : Str) (c : J) (rest : List J) :
    processComments cfg oracle article_url directory_name (c :: rest) =
      match c with
      | .obj cd =>
        let text := dGetD cd ("text".data) (J.s [])
        let author := dGetD cd ("author".data) (J.s [])
        if jTruthy text = false ∨ jTruthy author = false then
          processComments cfg oracle article_url directory_name rest
        else if is_positive_comment cfg oracle (jAsStr text) (jAsStr author) then
          match processComments cfg oracle article_url directory_name rest with
          | .ok r => .ok (acceptComment cd article_url directory_name :: r)
          | .error e => .error e
        else
          processComments cfg oracle article_url directory_name rest
      | _ => .error ("comment record is not an object".data) := rfl

/-- C10: every record in the output of the per-file comment loop is one of
the input records with exactly the keys article_url and directory_name set
on top of it; every other key, known or not, reads back unchanged. -/
theorem C10_accepted_records_pass_through
    (cfg : Config) (oracle : Str → OracleResult)
    (article_url : J) (directory_name : Str) :
    ∀ (comments : List J) (out : List Dict),
      processComments cfg oracle article_url directory_name comments = .ok out →
      ∀ c' ∈ out, ∃ cd, J.obj cd ∈ comments ∧
        c' = acceptComment cd article_url directory_name ∧
        ∀ k, dGet c' k =
          if k = "article_url".data then some article_url
          else if k = "directory_name".data then some (J.s directory_name)
          else dGet cd k
  | [], out => by
    intro h c' hc'
    simp only [processComments, Except.ok.injEq] at h
    subst h
    exact absurd hc' (List.not_mem_nil c')
  | c :: rest, out => by
    intro h c' hc'
    rw [processComments_cons] at h
    cases c with
    | obj cd =>
      dsimp only at h
      by_cases hskip : jTruthy (dGetD cd ("text".data) (J.s [])) = false ∨
          jTruthy (dGetD cd ("author".data) (J.s [])) = false
      · rw [if_pos hskip] at h
        obtain ⟨cd', hmem, hrest⟩ :=
          C10_accepted_records_pass_through cfg oracle article_url directory_name
            rest out h c' hc'
        exact ⟨cd', List.mem_cons_of_mem _ hmem, hrest⟩
      · rw [if_neg hskip] at h
        by_cases hpos : is_positive_comment cfg oracle
            (jAsStr (dGetD cd ("text".data) (J.s [])))
            (jAsStr (dGetD cd ("author".data) (J.s []))) = true
        · rw [if_pos hpos] at h
          cases hr : processComments cfg oracle article_url directory_name rest with
          | error e =>
            rw [hr] at h
            exact Except.noConfusion h
          | ok r =>
            rw [hr] at h
            dsimp only at h
            rw [Except.ok.injEq] at h
            subst h
            rcases List.mem_cons.mp hc' with hc' | hc'
            · subst hc'
              exact ⟨cd, List.mem_cons_self _ _, rfl,
                fun k => dGet_acceptComment cd article_url directory_name k⟩
            · obtain ⟨cd', hmem, heq, hget⟩ :=
                C10_accepted_records_pass_through cfg oracle article_url directory_name
                  rest r hr c' hc'
              exact ⟨cd', List.mem_cons_of_mem _ hmem, heq, hget⟩
        · rw [if_neg hpos] at h
          obtain ⟨cd', hmem, hrest⟩ :=
            C10_accepted_records_pass_through cfg oracle article_url directory_name
              rest out h c' hc'
          exact ⟨cd', List.mem_cons_of_mem _ hmem, hrest⟩
    | null => exact Except.noConfusion h
    | b v => exact Except.noConfusion h
    | n v => exact Except.noConfusion h
    | s v => exact Except.noConfusion h
    | arr xs => exact Except.noConfusion h

/-- The concrete comment record for C10's witness: a text of 21 characters
and a non-excluded author. -/
def cdW : Dict :=
  [("text".data, J.s ("abcdefghijklmnopqrstu".data)),
   ("author".data, J.s ("bob".data))]

/-- Witness for C10 on a one-comment run that accepts the comment. -/
theorem C10_accepted_records_pass_through_witness :
    processComments cfgW oracleW2 (J.s ("u".data)) ("d".data) [J.obj cdW] =
      .ok [acceptComment cdW (J.s ("u".data)) ("d".data)] ∧
    (∀ c' ∈ [acceptComment cdW (J.s ("u".data)) ("d".data)],
      ∃ cd, J.obj cd ∈ [J.obj cdW] ∧
        c' = acceptComment cd (J.s ("u".data)) ("d".data) ∧
        ∀ k, dGet c' k =
          if k = "article_url".data then some (J.s ("u".data))
          else if k = "directory_name".data then some (J.s ("d".data))
          else dGet cd k) :=
  ⟨rfl,
   C10_accepted_records_pass_through cfgW oracleW2 (J.s ("u".data)) ("d".data)
     [J.obj cdW] [acceptComment cdW (J.s ("u".data)) ("d".data)] rfl⟩
